import Mathlib

/-!
Shallow embedding of the autoscaling control loop of the
`docker-compose-extensions` repository (file `cmd/compose/scale.go`,
given as `src/unnamed/part_000`).

Floating-point values (`float64` CPU/memory percentages and thresholds) are
modelled as rationals `ℚ`; the Go conversion `int(x)` is modelled as
truncation toward zero (`trunc`).  Machine integers are modelled as `ℤ`
(replica counts stay tiny, so overflow is irrelevant).  The external
collaborators (metrics sampling via `getServiceResourceUsage` and actuation
via `backend.Scale`) are modelled as oracles in a `TickEnv`: an `Option`
result for sampling (`none` = error) and a `Bool` for actuation success.
-/

namespace AutoScale

/-- Go conversion `int(q)` for a `float64` value `q`: truncation toward
zero.  For nonnegative `q` this agrees with the floor. -/
def trunc (q : ℚ) : ℤ := if 0 ≤ q then ⌊q⌋ else ⌈q⌉

/-- The fields of Go `scaleOptions` that the autoscaling decision logic
reads (`cpuThreshold`, `memThreshold`, `minReplicas`, `maxReplicas`,
`strategyName`).  CLI-only fields (`noDeps`, `auto`, `interval`, project
options) are irrelevant to the decision functions and omitted. -/
structure ScaleOptions where
  cpuThreshold : ℚ
  memThreshold : ℚ
  minReplicas : ℤ
  maxReplicas : ℤ
  strategyName : String
deriving DecidableEq, Repr

/-- Go `calculatePerformanceScale` (part_000 lines 267-278): scale up by
50% when either usage exceeds its threshold; scale down by one only when
both usages are below half their thresholds and the current scale exceeds
`minReplicas`; otherwise unchanged. -/
def calculatePerformanceScale (currentScale : ℤ) (cpuUsage memUsage : ℚ)
    (opts : ScaleOptions) : ℤ :=
  if cpuUsage > opts.cpuThreshold ∨ memUsage > opts.memThreshold then
    trunc ((currentScale : ℚ) * 1.5)
  else if cpuUsage < opts.cpuThreshold * 0.5 ∧ memUsage < opts.memThreshold * 0.5 ∧
      currentScale > opts.minReplicas then
    currentScale - 1
  else
    currentScale

/-- Go `calculateEfficiencyScale` (part_000 lines 280-291).  The Go
scale-down condition is
`cpuUsage < opts.cpuThreshold || memUsage < opts.memThreshold && currentScale > opts.minReplicas`;
Go's `&&` binds tighter than `||`, so it parses as
`cpu < cth ∨ (mem < mth ∧ currentScale > minReplicas)`, reproduced here
verbatim. -/
def calculateEfficiencyScale (currentScale : ℤ) (cpuUsage memUsage : ℚ)
    (opts : ScaleOptions) : ℤ :=
  if cpuUsage > opts.cpuThreshold * 1.2 ∨ memUsage > opts.memThreshold * 1.2 then
    currentScale + 1
  else if cpuUsage < opts.cpuThreshold ∨
      (memUsage < opts.memThreshold ∧ currentScale > opts.minReplicas) then
    trunc ((currentScale : ℚ) * 0.75)
  else
    currentScale

/-- Go `calculateBalancedScale` (part_000 lines 293-304): up by one when
either usage exceeds its threshold; down by one when both usages are below
70% of their thresholds and the current scale exceeds `minReplicas`;
otherwise unchanged. -/
def calculateBalancedScale (currentScale : ℤ) (cpuUsage memUsage : ℚ)
    (opts : ScaleOptions) : ℤ :=
  if cpuUsage > opts.cpuThreshold ∨ memUsage > opts.memThreshold then
    currentScale + 1
  else if cpuUsage < opts.cpuThreshold * 0.7 ∧ memUsage < opts.memThreshold * 0.7 ∧
      currentScale > opts.minReplicas then
    currentScale - 1
  else
    currentScale

/-- The strategy dispatch inside Go `checkAndScale` (part_000 lines
220-229): a `switch` on the strategy string whose `default` case (not an
error case) is the balanced strategy. -/
def decideScale (currentScale : ℤ) (cpuUsage memUsage : ℚ)
    (opts : ScaleOptions) : ℤ :=
  if opts.strategyName = "performance" then
    calculatePerformanceScale currentScale cpuUsage memUsage opts
  else if opts.strategyName = "efficiency" then
    calculateEfficiencyScale currentScale cpuUsage memUsage opts
  else
    calculateBalancedScale currentScale cpuUsage memUsage opts

/-- The clamp step inside Go `checkAndScale` (part_000 lines 231-237):
first lift to `minReplicas`, then cap at `maxReplicas`, exactly in that
order. -/
def applyScaleLimits (newScale : ℤ) (opts : ScaleOptions) : ℤ :=
  let lifted := if newScale < opts.minReplicas then opts.minReplicas else newScale
  if lifted > opts.maxReplicas then opts.maxReplicas else lifted

/-- The clamp as the spec words it: `max(minReplicas, min(maxReplicas,
desired))`.  Stated separately so that agreement with `applyScaleLimits`
is a theorem, not a definition. -/
def clampSpec (desired : ℤ) (opts : ScaleOptions) : ℤ :=
  max opts.minReplicas (min opts.maxReplicas desired)

/-- Recorded state of one monitored service: its name and the `Scale`
field of its `types.ServiceConfig`, a nullable pointer (`*int`) modelled
as `Option ℤ`. -/
structure SvcState where
  name : String
  scale : Option ℤ
deriving DecidableEq, Repr

/-- The two collaborators of one tick: `getServiceResourceUsage`
(returning `none` on error, else a CPU/memory sample) and the success of
`backend.Scale` for a given service. -/
structure TickEnv where
  sample : String → Option (ℚ × ℚ)
  scaleOK : String → Bool

/-- Outcome of evaluating one service in one tick: `skipped` (metrics
error, `continue`), `unchanged` (clamped target equals current scale, no
actuation), or `actuated target ok` (a `backend.Scale` call was issued
for `target`; `ok` records the call's success). -/
inductive StepResult where
  | skipped
  | unchanged
  | actuated (target : ℤ) (ok : Bool)
deriving DecidableEq, Repr

/-- One iteration of the `for serviceName, service := range services` body
of Go `checkAndScale` (part_000 lines 201-256): default the current scale
to 1 when `Scale` is nil; on metrics failure warn and `continue`; clamp
the strategy decision; if it differs from the current scale, write the new
scale into the service map via `service.SetScale(newScale)` BEFORE calling
`backend.Scale`, and keep it regardless of that call's outcome (an
actuation failure only logs a warning). -/
def serviceStep (env : TickEnv) (opts : ScaleOptions) (svc : SvcState) :
    SvcState × StepResult :=
  let currentScale := svc.scale.getD 1
  match env.sample svc.name with
  | none => (svc, StepResult.skipped)
  | some (cpu, mem) =>
    let newScale := applyScaleLimits (decideScale currentScale cpu mem opts) opts
    if newScale = currentScale then
      (svc, StepResult.unchanged)
    else
      (⟨svc.name, some newScale⟩, StepResult.actuated newScale (env.scaleOK svc.name))

/-- Go `checkAndScale` over the target service set (part_000 lines
200-258): each service is evaluated sequentially and independently by
`serviceStep`.  The Go function's only `return` is `return nil`, so the
model has no error outcome: it returns the updated service states and the
per-service step results. -/
def checkAndScale (env : TickEnv) (opts : ScaleOptions) :
    List SvcState → List SvcState × List (String × StepResult)
  | [] => ([], [])
  | svc :: rest =>
    let first := serviceStep env opts svc
    let others := checkAndScale env opts rest
    (first.1 :: others.1, (svc.name, first.2) :: others.2)

/-- The main loop of Go `runAutoScale` (part_000 lines 183-197): it calls
`checkAndScale` every iteration, with no validation of the options
beforehand (the startup code only loads the project and prints the
configuration), until cancellation.  Fuel counts the iterations that run
before cancellation is observed; the second component counts the ticks
executed. -/
def runAutoScaleLoop (env : TickEnv) (opts : ScaleOptions) :
    Nat → List SvcState → List SvcState × Nat
  | 0, svcs => (svcs, 0)
  | n + 1, svcs =>
    let tick := checkAndScale env opts svcs
    let rest := runAutoScaleLoop env opts n tick.1
    (rest.1, rest.2 + 1)

theorem trunc_eq_floor (q : ℚ) (h : 0 ≤ q) : trunc q = ⌊q⌋ := by
  simp [trunc, h]

theorem decideScale_eq_performance (currentScale : ℤ) (cpu mem : ℚ) (opts : ScaleOptions)
    (h : opts.strategyName = "performance") :
    decideScale currentScale cpu mem opts =
      calculatePerformanceScale currentScale cpu mem opts := by
  unfold decideScale
  rw [h, if_pos rfl]

theorem decideScale_eq_efficiency (currentScale : ℤ) (cpu mem : ℚ) (opts : ScaleOptions)
    (h : opts.strategyName = "efficiency") :
    decideScale currentScale cpu mem opts =
      calculateEfficiencyScale currentScale cpu mem opts := by
  unfold decideScale
  rw [h, if_neg (by decide), if_pos rfl]

theorem decideScale_eq_balanced (currentScale : ℤ) (cpu mem : ℚ) (opts : ScaleOptions)
    (h1 : opts.strategyName ≠ "performance") (h2 : opts.strategyName ≠ "efficiency") :
    decideScale currentScale cpu mem opts =
      calculateBalancedScale currentScale cpu mem opts := by
  unfold decideScale
  rw [if_neg h1, if_neg h2]

theorem serviceStep_none (env : TickEnv) (opts : ScaleOptions) (svc : SvcState)
    (hs : env.sample svc.name = none) :
    serviceStep env opts svc = (svc, StepResult.skipped) := by
  unfold serviceStep
  rw [hs]

theorem serviceStep_some (env : TickEnv) (opts : ScaleOptions) (svc : SvcState)
    (cpu mem : ℚ) (hs : env.sample svc.name = some (cpu, mem)) :
    serviceStep env opts svc =
      if applyScaleLimits (decideScale (svc.scale.getD 1) cpu mem opts) opts =
          svc.scale.getD 1 then
        (svc, StepResult.unchanged)
      else
        (⟨svc.name, some (applyScaleLimits (decideScale (svc.scale.getD 1) cpu mem opts) opts)⟩,
         StepResult.actuated (applyScaleLimits (decideScale (svc.scale.getD 1) cpu mem opts) opts)
           (env.scaleOK svc.name)) := by
  unfold serviceStep
  rw [hs]

/-- C1: for the efficiency strategy, `decide` returns `currentScale + 1` when
`cpu > 1.2*cpuThreshold` or `mem > 1.2*memThreshold`; otherwise, when
`cpu < cpuThreshold`, or when `mem < memThreshold` and
`currentScale > minReplicas`, it returns `floor(currentScale * 0.75)`;
otherwise `currentScale` unchanged.  In particular, whenever the scale-up
branch is not taken and `cpu < cpuThreshold`, the scale-down branch fires
regardless of `mem` and regardless of the `currentScale > minReplicas`
guard. -/
theorem efficiency_decide_spec (currentScale : ℤ) (cpu mem : ℚ) (opts : ScaleOptions)
    (hstrat : opts.strategyName = "efficiency") (hpos : 0 ≤ currentScale) :
    (decideScale currentScale cpu mem opts =
      if cpu > opts.cpuThreshold * 1.2 ∨ mem > opts.memThreshold * 1.2 then
        currentScale + 1
      else if cpu < opts.cpuThreshold ∨
          (mem < opts.memThreshold ∧ currentScale > opts.minReplicas) then
        ⌊(currentScale : ℚ) * 0.75⌋
      else
        currentScale) ∧
    (¬(cpu > opts.cpuThreshold * 1.2 ∨ mem > opts.memThreshold * 1.2) →
      cpu < opts.cpuThreshold →
      decideScale currentScale cpu mem opts = ⌊(currentScale : ℚ) * 0.75⌋) := by
  have hd := decideScale_eq_efficiency currentScale cpu mem opts hstrat
  have hfl : trunc ((currentScale : ℚ) * 0.75) = ⌊(currentScale : ℚ) * 0.75⌋ :=
    trunc_eq_floor _ (mul_nonneg (by exact_mod_cast hpos) (by norm_num))
  constructor
  · rw [hd]
    unfold calculateEfficiencyScale
    rw [hfl]
  · intro hup hcpu
    rw [hd]
    unfold calculateEfficiencyScale
    rw [if_neg hup, if_pos (Or.inl hcpu), hfl]

/-- Witness for C1 at the spec's example: efficiency strategy, cpu=60,
mem=80, thresholds 70/70, scale=4, min=1: the scale-up branch is not taken,
cpu alone is below threshold, and the decision is `floor(4*0.75) = 3`
even though mem=80 is above threshold. -/
theorem efficiency_decide_spec_witness :
    decideScale 4 60 80 ⟨70, 70, 1, 10, "efficiency"⟩ = 3 := by
  have h := (efficiency_decide_spec 4 60 80 ⟨70, 70, 1, 10, "efficiency"⟩ rfl
    (by norm_num)).2 (by norm_num) (by norm_num)
  rw [h]
  norm_num

/-- C5: for the balanced strategy, `decide` returns `currentScale + 1` when
`cpu > cpuThreshold` or `mem > memThreshold`; otherwise `currentScale - 1`
when `cpu < 0.7*cpuThreshold` and `mem < 0.7*memThreshold` and
`currentScale > minReplicas`; otherwise `currentScale` unchanged. -/
theorem balanced_decide_spec (currentScale : ℤ) (cpu mem : ℚ) (opts : ScaleOptions)
    (hstrat : opts.strategyName = "balanced") :
    decideScale currentScale cpu mem opts =
      if cpu > opts.cpuThreshold ∨ mem > opts.memThreshold then
        currentScale + 1
      else if cpu < opts.cpuThreshold * 0.7 ∧ mem < opts.memThreshold * 0.7 ∧
          currentScale > opts.minReplicas then
        currentScale - 1
      else
        currentScale := by
  rw [decideScale_eq_balanced currentScale cpu mem opts
    (by rw [hstrat]; decide) (by rw [hstrat]; decide)]
  rfl

/-- Witness for C5 at the spec's two examples: balanced, cpu=80, mem=50,
thresholds 70/70, scale=2 gives 3; balanced, cpu=40, mem=40, thresholds
70/70, scale=3, min=1 gives 2. -/
theorem balanced_decide_spec_witness :
    decideScale 2 80 50 ⟨70, 70, 1, 10, "balanced"⟩ = 3 ∧
    decideScale 3 40 40 ⟨70, 70, 1, 10, "balanced"⟩ = 2 := by
  constructor
  · rw [balanced_decide_spec 2 80 50 ⟨70, 70, 1, 10, "balanced"⟩ rfl]
    norm_num
  · rw [balanced_decide_spec 3 40 40 ⟨70, 70, 1, 10, "balanced"⟩ rfl]
    norm_num

/-- C6: for the performance strategy, `decide` returns
`floor(currentScale * 1.5)` when `cpu > cpuThreshold` or
`mem > memThreshold`; otherwise `currentScale - 1` when
`cpu < 0.5*cpuThreshold` and `mem < 0.5*memThreshold` and
`currentScale > minReplicas`; otherwise `currentScale` unchanged. -/
theorem performance_decide_spec (currentScale : ℤ) (cpu mem : ℚ) (opts : ScaleOptions)
    (hstrat : opts.strategyName = "performance") (hpos : 0 ≤ currentScale) :
    decideScale currentScale cpu mem opts =
      if cpu > opts.cpuThreshold ∨ mem > opts.memThreshold then
        ⌊(currentScale : ℚ) * 1.5⌋
      else if cpu < opts.cpuThreshold * 0.5 ∧ mem < opts.memThreshold * 0.5 ∧
          currentScale > opts.minReplicas then
        currentScale - 1
      else
        currentScale := by
  have hfl : trunc ((currentScale : ℚ) * 1.5) = ⌊(currentScale : ℚ) * 1.5⌋ :=
    trunc_eq_floor _ (mul_nonneg (by exact_mod_cast hpos) (by norm_num))
  rw [decideScale_eq_performance currentScale cpu mem opts hstrat]
  unfold calculatePerformanceScale
  rw [hfl]

/-- Witness for C6 at the spec's example: performance, cpu=90, mem=50,
thresholds 70/70, scale=2 gives `floor(2*1.5) = 3`. -/
theorem performance_decide_spec_witness :
    decideScale 2 90 50 ⟨70, 70, 1, 10, "performance"⟩ = 3 := by
  rw [performance_decide_spec 2 90 50 ⟨70, 70, 1, 10, "performance"⟩ rfl (by norm_num)]
  norm_num

/-- C9: strategy dispatch has a default branch, not an error branch — for
every strategy string other than "performance" and "efficiency" (including
misspelled or unknown names, not just "balanced"), the decision is computed
by the balanced strategy. -/
theorem dispatch_default_balanced (currentScale : ℤ) (cpu mem : ℚ) (opts : ScaleOptions)
    (h1 : opts.strategyName ≠ "performance") (h2 : opts.strategyName ≠ "efficiency") :
    decideScale currentScale cpu mem opts =
      calculateBalancedScale currentScale cpu mem opts := by
  unfold decideScale
  rw [if_neg h1, if_neg h2]

/-- Witness for C9 at a misspelled strategy name "blanced": the decision is
the balanced one. -/
theorem dispatch_default_balanced_witness :
    decideScale 2 80 50 ⟨70, 70, 1, 10, "blanced"⟩ =
      calculateBalancedScale 2 80 50 ⟨70, 70, 1, 10, "blanced"⟩ :=
  dispatch_default_balanced 2 80 50 ⟨70, 70, 1, 10, "blanced"⟩ (by decide) (by decide)

/-- C4: the clamp step equals `max(minReplicas, min(maxReplicas, desired))`
whenever `minReplicas ≤ maxReplicas`; it is applied after every strategy
invocation, so for every such policy and all inputs the clamped decision
lies in `[minReplicas, maxReplicas]`; and every scale value a tick records
lies in `[minReplicas, maxReplicas]`. -/
theorem clamp_bounds_spec (opts : ScaleOptions)
    (hminmax : opts.minReplicas ≤ opts.maxReplicas) :
    (∀ desired : ℤ, applyScaleLimits desired opts = clampSpec desired opts) ∧
    (∀ (currentScale : ℤ) (cpu mem : ℚ), 0 ≤ cpu → 0 ≤ mem →
      opts.minReplicas ≤ applyScaleLimits (decideScale currentScale cpu mem opts) opts ∧
      applyScaleLimits (decideScale currentScale cpu mem opts) opts ≤ opts.maxReplicas) ∧
    (∀ (env : TickEnv) (svc : SvcState) (target : ℤ) (ok : Bool),
      (serviceStep env opts svc).2 = StepResult.actuated target ok →
      (serviceStep env opts svc).1.scale = some target ∧
      opts.minReplicas ≤ target ∧ target ≤ opts.maxReplicas) := by
  have hclamp : ∀ desired : ℤ,
      opts.minReplicas ≤ applyScaleLimits desired opts ∧
      applyScaleLimits desired opts ≤ opts.maxReplicas := by
    intro d
    simp only [applyScaleLimits]
    split_ifs <;> omega
  refine ⟨?_, ?_, ?_⟩
  · intro d
    simp only [applyScaleLimits, clampSpec, max_def, min_def]
    split_ifs <;> omega
  · intro currentScale cpu mem _ _
    exact hclamp _
  · intro env svc target ok hstep
    cases hs : env.sample svc.name with
    | none =>
      rw [serviceStep_none env opts svc hs] at hstep
      simp at hstep
    | some p =>
      obtain ⟨cpu, mem⟩ := p
      by_cases hne : applyScaleLimits (decideScale (svc.scale.getD 1) cpu mem opts) opts =
          svc.scale.getD 1
      · rw [serviceStep_some env opts svc cpu mem hs, if_pos hne] at hstep
        simp at hstep
      · rw [serviceStep_some env opts svc cpu mem hs, if_neg hne] at hstep
        rw [serviceStep_some env opts svc cpu mem hs, if_neg hne]
        simp only [StepResult.actuated.injEq] at hstep
        obtain ⟨ht, -⟩ := hstep
        subst ht
        exact ⟨rfl, hclamp _⟩

/-- Witness for C4 at the spec's example: with min=1 and max=10 the clamp
agrees with `max(min, min(max, desired))`, and a desired scale of 15 clamps
to 10. -/
theorem clamp_bounds_spec_witness :
    (1 : ℤ) ≤ 10 ∧
    applyScaleLimits 15 ⟨70, 70, 1, 10, "balanced"⟩ =
      clampSpec 15 ⟨70, 70, 1, 10, "balanced"⟩ ∧
    clampSpec 15 ⟨70, 70, 1, 10, "balanced"⟩ = 10 := by
  refine ⟨by norm_num, (clamp_bounds_spec ⟨70, 70, 1, 10, "balanced"⟩ (by norm_num)).1 15, ?_⟩
  norm_num [clampSpec]

/-- C7: if (in a tick, for a service whose metrics sample succeeds) the
clamped decision equals the service's current scale, no actuation call is
issued for that service and its recorded scale state is not modified. -/
theorem unchanged_no_actuation (env : TickEnv) (opts : ScaleOptions) (svc : SvcState)
    (cpu mem : ℚ) (hs : env.sample svc.name = some (cpu, mem))
    (heq : applyScaleLimits (decideScale (svc.scale.getD 1) cpu mem opts) opts =
      svc.scale.getD 1) :
    serviceStep env opts svc = (svc, StepResult.unchanged) := by
  unfold serviceStep
  rw [hs]
  simp [heq]

/-- Witness for C7: balanced strategy, cpu=50, mem=50, thresholds 70/70,
current scale 2: the clamped decision is again 2, so the step leaves the
service untouched and reports no actuation. -/
theorem unchanged_no_actuation_witness :
    serviceStep ⟨fun _ => some (50, 50), fun _ => true⟩ ⟨70, 70, 1, 10, "balanced"⟩
        ⟨"web", some 2⟩ =
      (⟨"web", some 2⟩, StepResult.unchanged) := by
  refine unchanged_no_actuation _ _ _ 50 50 rfl ?_
  rw [show ((⟨"web", some 2⟩ : SvcState).scale.getD 1) = 2 from rfl,
    decideScale_eq_balanced 2 50 50 _ (by decide) (by decide)]
  norm_num [calculateBalancedScale, applyScaleLimits]

/-- C8: if metrics sampling fails for a service in a tick, that service is
skipped with its state unchanged, the remaining services of the tick are
evaluated exactly as they otherwise would be, and the tick itself completes
normally (the sampling error is not propagated). -/
theorem metrics_failure_skip (env : TickEnv) (opts : ScaleOptions) (svc : SvcState)
    (rest : List SvcState) (hs : env.sample svc.name = none) :
    checkAndScale env opts (svc :: rest) =
      (svc :: (checkAndScale env opts rest).1,
       (svc.name, StepResult.skipped) :: (checkAndScale env opts rest).2) := by
  simp only [checkAndScale]
  rw [serviceStep_none env opts svc hs]

/-- Witness for C8: sampling fails for "db"; the tick skips it, leaves its
recorded scale at 5, and still processes the following service "web". -/
theorem metrics_failure_skip_witness :
    checkAndScale ⟨fun _ => none, fun _ => true⟩ ⟨70, 70, 1, 10, "balanced"⟩
        [⟨"db", some 5⟩, ⟨"web", some 2⟩] =
      (⟨"db", some 5⟩ ::
        (checkAndScale ⟨fun _ => none, fun _ => true⟩ ⟨70, 70, 1, 10, "balanced"⟩
          [⟨"web", some 2⟩]).1,
       ("db", StepResult.skipped) ::
        (checkAndScale ⟨fun _ => none, fun _ => true⟩ ⟨70, 70, 1, 10, "balanced"⟩
          [⟨"web", some 2⟩]).2) :=
  metrics_failure_skip _ _ ⟨"db", some 5⟩ [⟨"web", some 2⟩] rfl

/-- C10: when a monitored service has no configured scale (`Scale` is nil),
the loop treats its current scale as 1 when computing and comparing the
scaling decision: the step outcome is the same as for an explicit scale
of 1. -/
theorem nil_scale_default_one (env : TickEnv) (opts : ScaleOptions) (serviceName : String) :
    (serviceStep env opts ⟨serviceName, none⟩).2 =
      (serviceStep env opts ⟨serviceName, some 1⟩).2 := by
  cases hs : env.sample serviceName with
  | none =>
    rw [serviceStep_none env opts ⟨serviceName, none⟩ hs,
      serviceStep_none env opts ⟨serviceName, some 1⟩ hs]
  | some p =>
    obtain ⟨cpu, mem⟩ := p
    rw [serviceStep_some env opts ⟨serviceName, none⟩ cpu mem hs,
      serviceStep_some env opts ⟨serviceName, some 1⟩ cpu mem hs]
    by_cases h : applyScaleLimits (decideScale 1 cpu mem opts) opts = 1 <;>
      simp [h]

/-- Counterexample to C2 as stated: balanced strategy, thresholds 70/70,
service "web" at scale 2, sample cpu=90/mem=50, and a failing backend
(`scaleOK = false`).  The claim says the recorded scale state is left
unchanged at 2 on actuation failure; in fact the step records the failed
target 3 (the service map is updated before `backend.Scale` is called and
is not rolled back). -/
theorem actuation_failure_cex :
    (serviceStep ⟨fun _ => some (90, 50), fun _ => false⟩ ⟨70, 70, 1, 10, "balanced"⟩
        ⟨"web", some 2⟩).1.scale ≠ some 2 ∧
    serviceStep ⟨fun _ => some (90, 50), fun _ => false⟩ ⟨70, 70, 1, 10, "balanced"⟩
        ⟨"web", some 2⟩ =
      (⟨"web", some 3⟩, StepResult.actuated 3 false) := by
  have h3 : applyScaleLimits
      (decideScale 2 90 50 ⟨70, 70, 1, 10, "balanced"⟩) ⟨70, 70, 1, 10, "balanced"⟩ = 3 := by
    rw [decideScale_eq_balanced 2 90 50 _ (by decide) (by decide)]
    norm_num [calculateBalancedScale, applyScaleLimits]
  have hstep : serviceStep ⟨fun _ => some (90, 50), fun _ => false⟩
      ⟨70, 70, 1, 10, "balanced"⟩ ⟨"web", some 2⟩ =
      (⟨"web", some 3⟩, StepResult.actuated 3 false) := by
    rw [serviceStep_some _ _ _ 90 50 rfl]
    simp only [Option.getD_some]
    rw [h3]
    norm_num
  exact ⟨by rw [hstep]; simp, hstep⟩

/-- C2 amended: when the clamped decision differs from the current scale,
the step records the target into the service state BEFORE the actuation
call, and keeps it whether or not the call succeeds; after a failed call
the next tick therefore re-evaluates from the failed target, not from the
pre-failure scale. -/
theorem actuation_records_target (env : TickEnv) (opts : ScaleOptions) (svc : SvcState)
    (cpu mem : ℚ) (hs : env.sample svc.name = some (cpu, mem))
    (hne : applyScaleLimits (decideScale (svc.scale.getD 1) cpu mem opts) opts ≠
      svc.scale.getD 1) :
    serviceStep env opts svc =
      (⟨svc.name, some (applyScaleLimits (decideScale (svc.scale.getD 1) cpu mem opts) opts)⟩,
       StepResult.actuated (applyScaleLimits (decideScale (svc.scale.getD 1) cpu mem opts) opts)
         (env.scaleOK svc.name)) := by
  unfold serviceStep
  rw [hs]
  simp [hne]

/-- Witness for the amended C2: service "db" at scale 1, cpu=90 pushes the
balanced decision to 2, and the backend call fails (`scaleOK = false`); the
step nevertheless records scale 2 and reports the failed actuation. -/
theorem actuation_records_target_witness :
    serviceStep ⟨fun _ => some (90, 50), fun _ => false⟩ ⟨70, 70, 1, 10, "balanced"⟩
        ⟨"db", some 1⟩ =
      (⟨"db", some (applyScaleLimits
          (decideScale ((⟨"db", some 1⟩ : SvcState).scale.getD 1) 90 50
            ⟨70, 70, 1, 10, "balanced"⟩) ⟨70, 70, 1, 10, "balanced"⟩)⟩,
       StepResult.actuated (applyScaleLimits
          (decideScale ((⟨"db", some 1⟩ : SvcState).scale.getD 1) 90 50
            ⟨70, 70, 1, 10, "balanced"⟩) ⟨70, 70, 1, 10, "balanced"⟩) false) := by
  refine actuation_records_target _ _ _ 90 50 rfl ?_
  rw [show ((⟨"db", some 1⟩ : SvcState).scale.getD 1) = 1 from rfl,
    decideScale_eq_balanced 1 90 50 _ (by decide) (by decide)]
  norm_num [calculateBalancedScale, applyScaleLimits]

/-- Counterexample to C3 as stated: with the unknown strategy name "bogus"
AND `minReplicas = 5 > 2 = maxReplicas`, the loop does not fail at startup:
one unit of fuel executes one full tick, which even actuates service "web"
from scale 1 to 2 (the balanced default decided 2, and the clamp with
min > max produced 2).  The claim says no tick is ever executed under such
a configuration. -/
theorem no_validation_cex :
    (runAutoScaleLoop ⟨fun _ => some (90, 50), fun _ => true⟩ ⟨70, 70, 5, 2, "bogus"⟩ 1
        [⟨"web", some 1⟩]).2 = 1 ∧
    (runAutoScaleLoop ⟨fun _ => some (90, 50), fun _ => true⟩ ⟨70, 70, 5, 2, "bogus"⟩ 1
        [⟨"web", some 1⟩]).1 = [⟨"web", some 2⟩] := by
  have h2 : applyScaleLimits
      (decideScale 1 90 50 ⟨70, 70, 5, 2, "bogus"⟩) ⟨70, 70, 5, 2, "bogus"⟩ = 2 := by
    rw [decideScale_eq_balanced 1 90 50 _ (by decide) (by decide)]
    norm_num [calculateBalancedScale, applyScaleLimits]
  have hstep : serviceStep ⟨fun _ => some (90, 50), fun _ => true⟩ ⟨70, 70, 5, 2, "bogus"⟩
      ⟨"web", some 1⟩ = (⟨"web", some 2⟩, StepResult.actuated 2 true) := by
    rw [serviceStep_some _ _ _ 90 50 rfl]
    simp only [Option.getD_some]
    rw [h2]
    norm_num
  have htick : checkAndScale ⟨fun _ => some (90, 50), fun _ => true⟩ ⟨70, 70, 5, 2, "bogus"⟩
      [⟨"web", some 1⟩] = ([⟨"web", some 2⟩], [("web", StepResult.actuated 2 true)]) := by
    unfold checkAndScale
    rw [hstep]
    rfl
  constructor
  · rfl
  · simp only [runAutoScaleLoop]
    rw [htick]

/-- C3 amended: `runAutoScale` performs no configuration validation at all:
for every options record — any strategy string (unknown names silently
dispatch to the balanced strategy) and any `minReplicas`/`maxReplicas`
relation, including `minReplicas > maxReplicas` — the loop enters its
running phase and executes one `checkAndScale` tick per iteration until
cancelled. -/
theorem loop_runs_unvalidated (env : TickEnv) (opts : ScaleOptions) (n : ℕ)
    (svcs : List SvcState) :
    (runAutoScaleLoop env opts n svcs).2 = n := by
  induction n generalizing svcs with
  | zero => rfl
  | succ k ih =>
    simp only [runAutoScaleLoop]
    rw [ih]

end AutoScale
